import Mathlib

/-
Verification of the Nano language front end (lexer.hpp / parser.hpp).

The C++ sources are shallowly embedded: the lexer's `m_source` plus
`m_index` cursor is represented as the not-yet-consumed suffix `rest`
of the character list, the token vector as a `List Token`, and the
scanning loop as a fuel-indexed recursion (`none` = fuel exhausted).
The parser's token vector plus `index` is likewise the suffix of
not-yet-consumed tokens, and the mutually recursive descent functions
are one fuel-indexed function `parseRun` dispatching on a call tag.
-/

namespace Nano

/-- The 24 reserved words of `constexpr std::array keywords` in lexer.hpp. -/
def keywords : List String :=
  ["fn", "return", "var", "const", "enum", "struct", "class", "dyn",
   "while", "true", "false", "for", "if", "elseif", "else", "break",
   "continue", "switch", "case", "default", "null", "import", "asm", "comptime"]

/-- enum class LexerError of lexer.hpp. -/
inductive LexerError where
  | unterminated_string
  | unterminated_character
  | unknown_character
  | unclosed_comment
  | unknown_escape_sequence
deriving DecidableEq, Repr

/-- enum class TypeOfToken of lexer.hpp. -/
inductive TypeOfToken where
  | IDENTIFIER | KEYWORD | NUMBER | STRING | CHAR | NEWLINE
  | OP_PLUS | OP_PLUSEQUALS | OP_INC
  | OP_MINUS | OP_MINUSEQUALS | OP_DEC
  | OP_TIMES | OP_TIMESEQUALS
  | OP_DIV | OP_DIVEQUALS
  | OP_EQUALS | OP_EQUALSEQUALS
  | OP_AMPERSAND | OP_DOUBLEAMPERSAND
  | OP_EXCL_MARK | OP_EXCL_EQUALS
  | OP_PIPE | OP_DOUBLEPIPE
  | COMMA | PERIOD | COLON | DOUBLECOLON | SEMICOLON
  | GTHAN | GTHAN_EQUALS | LTHAN | LTHAN_EQUALS
  | RPAREN | LPAREN | RBRACKET | LBRACKET | RBRACE | LBRACE
  | COMMENT | T_EOF
deriving DecidableEq, Repr

/-- struct Token of lexer.hpp: `(type, val, line, column)`. -/
structure Token where
  type : TypeOfToken
  val : String
  line : Nat
  column : Nat
deriving DecidableEq, Repr

/-- std::isspace in the default C locale (note: this includes the newline). -/
def cIsSpace (c : Char) : Bool :=
  c = ' ' || c = '\t' || c = '\n' || c = '\x0B' || c = '\x0C' || c = '\r'

/-- std::isalpha in the default C locale (ASCII letters). -/
def cIsAlpha (c : Char) : Bool :=
  ('A' ≤ c && c ≤ 'Z') || ('a' ≤ c && c ≤ 'z')

/-- std::isdigit. -/
def cIsDigit (c : Char) : Bool := '0' ≤ c && c ≤ '9'

/-- std::isalnum. -/
def cIsAlnum (c : Char) : Bool := cIsAlpha c || cIsDigit c

/-- Lexer state: `rest` is `m_source[m_index ..]`, plus `m_line`,
`m_column` and the accumulated token vector. -/
structure LexSt where
  rest : List Char
  line : Nat
  col : Nat
  tokens : List Token
deriving Repr

/-- Lexer::next_char: returns NUL without advancing at end of input,
otherwise consumes one character and updates line/column. -/
def nextChar (st : LexSt) : Char × LexSt :=
  match st.rest with
  | [] => ('\x00', st)
  | c :: rs =>
      if c = '\n' then (c, { st with rest := rs, line := st.line + 1, col := 1 })
      else (c, { st with rest := rs, col := st.col + 1 })

/-- Lexer::peek_next. -/
def peekNext (st : LexSt) : Char :=
  match st.rest with
  | [] => '\x00'
  | c :: _ => c

/-- tokens.emplace_back(t, v, m_line, m_column). -/
def emitTok (t : TypeOfToken) (v : String) (st : LexSt) : LexSt :=
  { st with tokens := st.tokens ++ [⟨t, v, st.line, st.col⟩] }

/-- Outcome of handling one lexeme: either the updated state, or a
LexerError returned while the state (token vector included) stands. -/
inductive LexOut where
  | ok (st : LexSt)
  | error (e : LexerError) (st : LexSt)

/-- The state carried by either outcome. -/
def LexOut.state : LexOut → LexSt
  | .ok st => st
  | .error _ st => st

/-- The identifier loop: `while (isalnum(peek) || peek == '_') push(next_char())`.
Identifier characters are never newlines, so only the column advances. -/
def lexIdentLoop : List Char → Nat → String → String × List Char × Nat
  | [], col, acc => (acc, [], col)
  | c :: rs, col, acc =>
      if cIsAlnum c || c = '_' then lexIdentLoop rs (col + 1) (acc.push c)
      else (acc, c :: rs, col)

/-- The number loop: digits, plus at most one dot (the first one only). -/
def lexNumLoop : List Char → Nat → Bool → String → String × List Char × Nat
  | [], col, _, acc => (acc, [], col)
  | c :: rs, col, hasDot, acc =>
      if cIsDigit c then lexNumLoop rs (col + 1) hasDot (acc.push c)
      else if c = '.' && !hasDot then lexNumLoop rs (col + 1) true (acc.push '.')
      else (acc, c :: rs, col)

/-- The string loop: `while (peek != q && peek != NUL) push(next_char())`,
where q is the double quote; consumed characters may include newlines. -/
def lexStrLoop : List Char → Nat → Nat → String → String × List Char × Nat × Nat
  | [], line, col, acc => (acc, [], line, col)
  | c :: rs, line, col, acc =>
      if c = '"' then (acc, c :: rs, line, col)
      else if c = '\n' then lexStrLoop rs (line + 1) 1 (acc.push c)
      else lexStrLoop rs line (col + 1) (acc.push c)

/-- The line-comment loop: `while (peek != newline && peek != NUL) push(next_char())`. -/
def lexLineLoop : List Char → Nat → String → String × List Char × Nat
  | [], col, acc => (acc, [], col)
  | c :: rs, col, acc =>
      if c = '\n' then (acc, c :: rs, col)
      else lexLineLoop rs (col + 1) (acc.push c)

/-- The block-comment loop: consume until `*` followed by `/` (closed) or end
of input (not closed); the boolean is the source's `closed` flag. -/
def lexBlockLoop : List Char → Nat → Nat → String → String × List Char × Nat × Nat × Bool
  | [], line, col, acc => (acc, [], line, col, false)
  | c :: rs, line, col, acc =>
      if c = '*' then
        match rs with
        | '/' :: rs2 => (acc, rs2, line, col + 2, true)
        | _ => lexBlockLoop rs line (col + 1) (acc.push '*')
      else if c = '\n' then lexBlockLoop rs (line + 1) 1 (acc.push c)
      else lexBlockLoop rs line (col + 1) (acc.push c)

/-- The escape table of the character-literal branch. -/
def decodeEsc : Char → Option Char
  | 'n' => some '\n'
  | 't' => some '\t'
  | '\\' => some '\\'
  | '\'' => some '\''
  | '"' => some '"'
  | _ => none

/-- Closing of a character literal: consume the closing quote and emit the
CHAR token, or fail with unterminated_character. -/
def finishCharLit (ch : Char) (st : LexSt) : LexOut :=
  if peekNext st = '\'' then
    .ok (emitTok .CHAR (String.singleton ch) (nextChar st).2)
  else .error .unterminated_character st

/-- The character-literal branch (the opening quote is already consumed).
The first `nextChar` mirrors the source's stray `next_char()` whose result
is discarded (lexer.hpp line 211). -/
def lexCharLit (st : LexSt) : LexOut :=
  let st1 := (nextChar st).2
  if peekNext st1 = '\\' then
    let st2 := (nextChar st1).2
    let st3 := (nextChar st2).2
    match decodeEsc (nextChar st2).1 with
    | some ch => finishCharLit ch st3
    | none => .error .unknown_escape_sequence st3
  else finishCharLit (nextChar st1).1 (nextChar st1).2

/-- The operator/punctuation switch at the end of Lexer::tokenize: fixed
two-character operators take priority over their one-character prefix,
any unmatched character is unknown_character. -/
def lexOp (c : Char) (st : LexSt) : LexOut :=
  let next := peekNext st
  match c with
  | '+' =>
      if next = '+' then .ok (emitTok .OP_INC "++" (nextChar st).2)
      else if next = '=' then .ok (emitTok .OP_PLUSEQUALS "+=" (nextChar st).2)
      else .ok (emitTok .OP_PLUS "+" st)
  | '-' =>
      if next = '-' then .ok (emitTok .OP_DEC "--" (nextChar st).2)
      else if next = '=' then .ok (emitTok .OP_MINUSEQUALS "-=" (nextChar st).2)
      else .ok (emitTok .OP_MINUS "-" st)
  | '*' =>
      if next = '=' then .ok (emitTok .OP_TIMESEQUALS "*=" (nextChar st).2)
      else .ok (emitTok .OP_TIMES "*" st)
  | '=' =>
      if next = '=' then .ok (emitTok .OP_EQUALSEQUALS "==" (nextChar st).2)
      else .ok (emitTok .OP_EQUALS "=" st)
  | '!' =>
      if next = '=' then .ok (emitTok .OP_EXCL_EQUALS "!=" (nextChar st).2)
      else .ok (emitTok .OP_EXCL_MARK "!" st)
  | '&' =>
      if next = '&' then .ok (emitTok .OP_DOUBLEAMPERSAND "&&" (nextChar st).2)
      else .ok (emitTok .OP_AMPERSAND "&" st)
  | '|' =>
      if next = '|' then .ok (emitTok .OP_DOUBLEPIPE "||" (nextChar st).2)
      else .ok (emitTok .OP_PIPE "|" st)
  | '>' =>
      if next = '=' then .ok (emitTok .GTHAN_EQUALS ">=" (nextChar st).2)
      else .ok (emitTok .GTHAN ">" st)
  | '<' =>
      if next = '=' then .ok (emitTok .LTHAN_EQUALS "<=" (nextChar st).2)
      else .ok (emitTok .LTHAN "<" st)
  | ':' =>
      if next = ':' then .ok (emitTok .DOUBLECOLON "::" (nextChar st).2)
      else .ok (emitTok .COLON ":" st)
  | ';' => .ok (emitTok .SEMICOLON ";" st)
  | ',' => .ok (emitTok .COMMA "," st)
  | '.' => .ok (emitTok .PERIOD "." st)
  | '(' => .ok (emitTok .LPAREN "(" st)
  | ')' => .ok (emitTok .RPAREN ")" st)
  | '[' => .ok (emitTok .LBRACKET "[" st)
  | ']' => .ok (emitTok .RBRACKET "]" st)
  | '\x7b' => .ok (emitTok .LBRACE "\x7b" st)
  | '\x7d' => .ok (emitTok .RBRACE "\x7d" st)
  | _ => .error .unknown_character st

/-- The identifier/keyword branch of the scanning loop: greedy identifier
characters, then exact-match classification against the keyword table. -/
def lexIdentB (c : Char) (st : LexSt) : LexOut :=
  let r := lexIdentLoop st.rest st.col (String.singleton c)
  let st' := { st with rest := r.2.1, col := r.2.2 }
  if keywords.contains r.1 then .ok (emitTok .KEYWORD r.1 st')
  else .ok (emitTok .IDENTIFIER r.1 st')

/-- The number branch: digits with at most one dot. -/
def lexNumB (c : Char) (st : LexSt) : LexOut :=
  let r := lexNumLoop st.rest st.col false (String.singleton c)
  .ok (emitTok .NUMBER r.1 { st with rest := r.2.1, col := r.2.2 })

/-- The string-literal branch: the loop stops at the closing quote, which is
then consumed, or at end of input, which is unterminated_string. -/
def lexStrB (st : LexSt) : LexOut :=
  let r := lexStrLoop st.rest st.line st.col ""
  match r.2.1 with
  | '"' :: rs =>
      .ok (emitTok .STRING r.1 { st with rest := rs, line := r.2.2.1, col := r.2.2.2 + 1 })
  | _ =>
      .error .unterminated_string { st with rest := r.2.1, line := r.2.2.1, col := r.2.2.2 }

/-- The slash branch: line comment, block comment (the partial COMMENT token
is emitted even when the comment is unclosed), or the division operator. -/
def lexSlashB (st : LexSt) : LexOut :=
  match st.rest with
  | '/' :: rs =>
      let r := lexLineLoop rs (st.col + 1) ""
      .ok (emitTok .COMMENT r.1 { st with rest := r.2.1, col := r.2.2 })
  | '*' :: rs =>
      let r := lexBlockLoop rs st.line (st.col + 1) ""
      let st' := emitTok .COMMENT r.1 { st with rest := r.2.1, line := r.2.2.1, col := r.2.2.2.1 }
      if r.2.2.2.2 then .ok st' else .error .unclosed_comment st'
  | _ => .ok (emitTok .OP_DIV "/" st)

/-- One iteration of the scanning loop after the leading character `c` has
been consumed: the if/else chain of Lexer::tokenize. Note the second branch
is unreachable because `cIsSpace` is already true for the newline. -/
def lexStep (c : Char) (st : LexSt) : LexOut :=
  if cIsSpace c then .ok st
  else if c = '\n' then .ok (emitTok .NEWLINE "[newline]" st)
  else if cIsAlpha c || c = '_' then lexIdentB c st
  else if cIsDigit c then lexNumB c st
  else if c = '"' then lexStrB st
  else if c = '/' then lexSlashB st
  else if c = '\'' then lexCharLit st
  else lexOp c st

/-- Lexer::tokenize as a fuel-indexed recursion: `none` means the fuel ran
out, `some (tokens, none)` is a successful scan, `some (tokens, some e)` an
error returned with the tokens accumulated so far still in the vector. -/
def tokenizeAux : Nat → LexSt → Option (List Token × Option LexerError)
  | 0, st =>
      match st.rest with
      | [] => some (st.tokens, none)
      | _ :: _ => none
  | fuel + 1, st =>
      match st.rest with
      | [] => some (st.tokens, none)
      | _ :: _ =>
          match nextChar st with
          | (c, st1) =>
              match lexStep c st1 with
              | .ok st2 => tokenizeAux fuel st2
              | .error e st2 => some (st2.tokens, some e)

/-- The lexer's initial state on a source string. -/
def initLex (src : String) : LexSt := ⟨src.data, 1, 1, []⟩

/-- Lexer::tokenize on a whole source string. The fuel `length + 1` always
suffices (theorem C9), so the default branch of `getD` is never taken. -/
def tokenize (src : String) : List Token × Option LexerError :=
  (tokenizeAux (src.data.length + 1) (initLex src)).getD ([], none)

/-! Progress lemmas: every lexeme handler only consumes input, and the token
vector only ever grows. These drive the termination bound (C9) and the
error-path behaviour of the token vector (C5). -/

@[simp] theorem LexOut_state_ok (st : LexSt) : (LexOut.ok st).state = st := rfl

@[simp] theorem LexOut_state_error (e : LexerError) (st : LexSt) :
    (LexOut.error e st).state = st := rfl

@[simp] theorem emitTok_rest (t : TypeOfToken) (v : String) (st : LexSt) :
    (emitTok t v st).rest = st.rest := rfl

theorem emitTok_tokens (t : TypeOfToken) (v : String) (st : LexSt) :
    (emitTok t v st).tokens = st.tokens ++ [⟨t, v, st.line, st.col⟩] := rfl

theorem nextChar_rest_length (st : LexSt) :
    (nextChar st).2.rest.length ≤ st.rest.length := by
  simp only [nextChar]
  split
  · exact Nat.le_refl _
  · rename_i c rs heq
    rw [heq]
    split <;> simp

theorem nextChar_tokens (st : LexSt) : (nextChar st).2.tokens = st.tokens := by
  simp only [nextChar]
  split
  · rfl
  · split <;> rfl

theorem lexIdentLoop_length (rs : List Char) (col : Nat) (acc : String) :
    (lexIdentLoop rs col acc).2.1.length ≤ rs.length := by
  induction rs generalizing col acc with
  | nil => simp [lexIdentLoop]
  | cons c rs ih =>
      simp only [lexIdentLoop]
      split
      · exact Nat.le_trans (ih _ _) (Nat.le_succ _)
      · simp

theorem lexNumLoop_length (rs : List Char) (col : Nat) (hasDot : Bool) (acc : String) :
    (lexNumLoop rs col hasDot acc).2.1.length ≤ rs.length := by
  induction rs generalizing col hasDot acc with
  | nil => simp [lexNumLoop]
  | cons c rs ih =>
      simp only [lexNumLoop]
      split
      · exact Nat.le_trans (ih _ _ _) (Nat.le_succ _)
      · split
        · exact Nat.le_trans (ih _ _ _) (Nat.le_succ _)
        · simp

theorem lexStrLoop_length (rs : List Char) (line col : Nat) (acc : String) :
    (lexStrLoop rs line col acc).2.1.length ≤ rs.length := by
  induction rs generalizing line col acc with
  | nil => simp [lexStrLoop]
  | cons c rs ih =>
      simp only [lexStrLoop]
      split
      · simp
      · split <;> exact Nat.le_trans (ih _ _ _) (Nat.le_succ _)

theorem lexLineLoop_length (rs : List Char) (col : Nat) (acc : String) :
    (lexLineLoop rs col acc).2.1.length ≤ rs.length := by
  induction rs generalizing col acc with
  | nil => simp [lexLineLoop]
  | cons c rs ih =>
      simp only [lexLineLoop]
      split
      · simp
      · exact Nat.le_trans (ih _ _) (Nat.le_succ _)

theorem lexBlockLoop_length (rs : List Char) (line col : Nat) (acc : String) :
    (lexBlockLoop rs line col acc).2.1.length ≤ rs.length := by
  induction rs, line, col, acc using lexBlockLoop.induct <;>
    simp_all [lexBlockLoop] <;> omega

theorem finishCharLit_length (ch : Char) (st : LexSt) :
    (finishCharLit ch st).state.rest.length ≤ st.rest.length := by
  simp only [finishCharLit]
  split
  · simpa using nextChar_rest_length st
  · simp

theorem lexCharLit_length (st : LexSt) :
    (lexCharLit st).state.rest.length ≤ st.rest.length := by
  simp only [lexCharLit]
  split
  · split
    · exact Nat.le_trans (finishCharLit_length _ _)
        (Nat.le_trans (nextChar_rest_length _)
          (Nat.le_trans (nextChar_rest_length _) (nextChar_rest_length _)))
    · simpa using Nat.le_trans (Nat.le_trans (nextChar_rest_length _) (nextChar_rest_length _))
        (nextChar_rest_length _)
  · exact Nat.le_trans (finishCharLit_length _ _)
      (Nat.le_trans (nextChar_rest_length _) (nextChar_rest_length _))

theorem lexOp_length (c : Char) (st : LexSt) :
    (lexOp c st).state.rest.length ≤ st.rest.length := by
  simp only [lexOp]
  split <;> (try split_ifs) <;> simp <;>
    exact nextChar_rest_length st

theorem lexIdentB_length (c : Char) (st : LexSt) :
    (lexIdentB c st).state.rest.length ≤ st.rest.length := by
  simp only [lexIdentB]
  split <;> simpa using lexIdentLoop_length st.rest st.col (String.singleton c)

theorem lexNumB_length (c : Char) (st : LexSt) :
    (lexNumB c st).state.rest.length ≤ st.rest.length := by
  simpa [lexNumB] using lexNumLoop_length st.rest st.col false (String.singleton c)

theorem lexStrB_length (st : LexSt) :
    (lexStrB st).state.rest.length ≤ st.rest.length := by
  have hs := lexStrLoop_length st.rest st.line st.col ""
  simp only [lexStrB]
  split
  · rename_i rs heq
    simp only [LexOut_state_ok, emitTok_rest]
    rw [heq] at hs
    simp only [List.length_cons] at hs
    omega
  · simpa using hs

theorem lexSlashB_length (st : LexSt) :
    (lexSlashB st).state.rest.length ≤ st.rest.length := by
  simp only [lexSlashB]
  split
  · rename_i rs heq
    have hl := lexLineLoop_length rs (st.col + 1) ""
    simp only [LexOut_state_ok, emitTok_rest, heq, List.length_cons]
    omega
  · rename_i rs heq
    have hb := lexBlockLoop_length rs st.line (st.col + 1) ""
    split <;>
      · simp only [LexOut_state_ok, LexOut_state_error, emitTok_rest, heq, List.length_cons]
        omega
  · simp

theorem lexStep_length (c : Char) (st : LexSt) :
    (lexStep c st).state.rest.length ≤ st.rest.length := by
  simp only [lexStep]
  split_ifs
  · simp
  · simp
  · exact lexIdentB_length c st
  · exact lexNumB_length c st
  · exact lexStrB_length st
  · exact lexSlashB_length st
  · exact lexCharLit_length st
  · exact lexOp_length c st

theorem finishCharLit_tokens (ch : Char) (st : LexSt) :
    ∃ ts, (finishCharLit ch st).state.tokens = st.tokens ++ ts := by
  simp only [finishCharLit]
  split <;>
    · apply Exists.intro
      simp only [LexOut_state_ok, LexOut_state_error, emitTok_tokens, nextChar_tokens]
      first
        | rfl
        | exact (List.append_nil _).symm

theorem lexCharLit_tokens (st : LexSt) :
    ∃ ts, (lexCharLit st).state.tokens = st.tokens ++ ts := by
  simp only [lexCharLit]
  split
  · split
    · obtain ⟨ts, h⟩ := finishCharLit_tokens _ ((nextChar (nextChar (nextChar st).2).2).2)
      exact ⟨ts, by rw [h]; simp [nextChar_tokens]⟩
    · exact ⟨[], by simp [nextChar_tokens]⟩
  · obtain ⟨ts, h⟩ := finishCharLit_tokens _ ((nextChar (nextChar st).2).2)
    exact ⟨ts, by rw [h]; simp [nextChar_tokens]⟩

theorem lexOp_tokens (c : Char) (st : LexSt) :
    ∃ ts, (lexOp c st).state.tokens = st.tokens ++ ts := by
  simp only [lexOp]
  split <;> (try split_ifs) <;>
    · apply Exists.intro
      simp only [LexOut_state_ok, LexOut_state_error, emitTok_tokens, nextChar_tokens]
      first
        | rfl
        | exact (List.append_nil _).symm

theorem lexIdentB_tokens (c : Char) (st : LexSt) :
    ∃ ts, (lexIdentB c st).state.tokens = st.tokens ++ ts := by
  simp only [lexIdentB]
  split <;>
    · apply Exists.intro
      simp only [LexOut_state_ok, emitTok_tokens]
      rfl

theorem lexNumB_tokens (c : Char) (st : LexSt) :
    ∃ ts, (lexNumB c st).state.tokens = st.tokens ++ ts := by
  simp only [lexNumB]
  apply Exists.intro
  simp only [LexOut_state_ok, emitTok_tokens]
  rfl

theorem lexStrB_tokens (st : LexSt) :
    ∃ ts, (lexStrB st).state.tokens = st.tokens ++ ts := by
  simp only [lexStrB]
  split <;>
    · apply Exists.intro
      simp only [LexOut_state_ok, LexOut_state_error, emitTok_tokens]
      first
        | rfl
        | exact (List.append_nil _).symm

theorem lexSlashB_tokens (st : LexSt) :
    ∃ ts, (lexSlashB st).state.tokens = st.tokens ++ ts := by
  simp only [lexSlashB]
  split <;> (try split_ifs) <;>
    · apply Exists.intro
      simp only [LexOut_state_ok, LexOut_state_error, emitTok_tokens]
      rfl

/-- The scanning loop body only ever appends to the token vector. -/
theorem lexStep_tokens (c : Char) (st : LexSt) :
    ∃ ts, (lexStep c st).state.tokens = st.tokens ++ ts := by
  simp only [lexStep]
  split_ifs
  · exact ⟨[], List.append_nil _ |>.symm⟩
  · apply Exists.intro
    simp only [LexOut_state_ok, emitTok_tokens]
    rfl
  · exact lexIdentB_tokens c st
  · exact lexNumB_tokens c st
  · exact lexStrB_tokens st
  · exact lexSlashB_tokens st
  · exact lexCharLit_tokens st
  · exact lexOp_tokens c st

/-- C9: tokenize terminates on every finite input. Each iteration of the
scanning loop consumes at least the one character read by next_char, so fuel
exceeding the remaining source length is never exhausted: the fuel-indexed
loop returns a result (`isSome`) whenever `rest.length < fuel`; in particular
the number of loop steps is bounded by the source length. -/
theorem C9_tokenize_terminates :
    ∀ (fuel : Nat) (st : LexSt), st.rest.length < fuel →
      (tokenizeAux fuel st).isSome = true := by
  intro fuel
  induction fuel with
  | zero => intro st h; exact absurd h (Nat.not_lt_zero _)
  | succ f ih =>
      intro st h
      rcases hrest : st.rest with _ | ⟨c, rs⟩
      · simp [tokenizeAux, hrest]
      · have hlen : rs.length < f := by
          rw [hrest] at h; simpa using h
        have hnext : (nextChar st).2.rest = rs := by
          simp only [nextChar, hrest]
          split <;> rfl
        simp only [tokenizeAux, hrest]
        rcases hstep : lexStep (nextChar st).1 (nextChar st).2 with st2 | ⟨e, st2⟩
        · have hle := lexStep_length (nextChar st).1 (nextChar st).2
          rw [hstep] at hle
          simp only [LexOut_state_ok] at hle
          rw [hnext] at hle
          exact ih st2 (by omega)
        · simp

/-- C9 witness: the bound discharged on a concrete input. -/
theorem C9_tokenize_terminates_witness :
    (initLex "x").rest.length < 2 ∧ (tokenizeAux 2 (initLex "x")).isSome = true :=
  ⟨by decide, C9_tokenize_terminates 2 (initLex "x") (by decide)⟩

/-- C5 amended: when tokenize stops at the first error it returns that error,
but the tokens already produced in the same call are retained in the token
vector (the result extends the tokens accumulated so far), not discarded:
there is no all-or-nothing guarantee. -/
theorem C5_error_stops_scan :
    ∀ (fuel : Nat) (st : LexSt) (toks : List Token) (e : LexerError),
      tokenizeAux fuel st = some (toks, some e) →
      ∃ ts, toks = st.tokens ++ ts := by
  intro fuel
  induction fuel with
  | zero =>
      intro st toks e h
      rcases hrest : st.rest with _ | ⟨c, rs⟩ <;> simp [tokenizeAux, hrest] at h
  | succ f ih =>
      intro st toks e h
      rcases hrest : st.rest with _ | ⟨c, rs⟩
      · simp [tokenizeAux, hrest] at h
      · simp only [tokenizeAux, hrest] at h
        rcases hstep : lexStep (nextChar st).1 (nextChar st).2 with st2 | ⟨e2, st2⟩
        · rw [hstep] at h
          obtain ⟨ts1, h1⟩ := ih st2 toks e h
          obtain ⟨ts0, h0⟩ := lexStep_tokens (nextChar st).1 (nextChar st).2
          rw [hstep] at h0
          simp only [LexOut_state_ok] at h0
          rw [nextChar_tokens] at h0
          exact ⟨ts0 ++ ts1, by rw [h1, h0, List.append_assoc]⟩
        · rw [hstep] at h
          simp only [Option.some.injEq, Prod.mk.injEq] at h
          obtain ⟨ts0, h0⟩ := lexStep_tokens (nextChar st).1 (nextChar st).2
          rw [hstep] at h0
          simp only [LexOut_state_error] at h0
          rw [nextChar_tokens] at h0
          exact ⟨ts0, by rw [← h.1, h0]⟩

/-- C5 witness: the amended statement discharged on a concrete erroring
input whose error is preceded by an already-emitted token. -/
theorem C5_error_stops_scan_witness :
    tokenizeAux 5 (initLex "x \"a") =
      some ([⟨.IDENTIFIER, "x", 1, 2⟩], some .unterminated_string)
    ∧ ∃ ts, [(⟨.IDENTIFIER, "x", 1, 2⟩ : Token)] = (initLex "x \"a").tokens ++ ts :=
  ⟨by decide,
   C5_error_stops_scan 5 (initLex "x \"a") [⟨.IDENTIFIER, "x", 1, 2⟩]
     .unterminated_string (by decide)⟩

/-- C10: tokenize on the empty source string succeeds, returning no error
and an empty token sequence. -/
theorem C10_tokenize_empty : tokenize "" = ([], none) := by decide

/-- C1: the claim that each newline outside literals/comments emits a NEWLINE
token is wrong on the code: `std::isspace` is true for the newline, so the
first branch of the scanning loop skips it and the NEWLINE branch is dead.
`"\n"` lexes to no token at all, `"a\nb"` to two identifiers with no NEWLINE
between them, and other whitespace is skipped as claimed. -/
theorem C1_newline_token_bug :
    tokenize "\n" = ([], none)
    ∧ tokenize "a\nb" =
        ([⟨.IDENTIFIER, "a", 1, 2⟩, ⟨.IDENTIFIER, "b", 2, 2⟩], none)
    ∧ tokenize " \t\r" = ([], none) := by
  refine ⟨by decide, by decide, by decide⟩

/-- C5 counterexample: the token sequence is not empty when tokenize returns
a LexError. On `"/* x"` the partial COMMENT token is appended and then
unclosed_comment is returned, and on `"x \"a"` the IDENTIFIER token produced
before the unterminated string survives next to the error. -/
theorem C5_tokens_retained_counterexample :
    tokenize "/* x" = ([⟨.COMMENT, " x", 1, 5⟩], some .unclosed_comment)
    ∧ tokenize "x \"a" = ([⟨.IDENTIFIER, "x", 1, 2⟩], some .unterminated_string)
    ∧ ([⟨.COMMENT, " x", 1, 5⟩] : List Token) ≠ [] := by
  refine ⟨by decide, by decide, by decide⟩

/-- C6: the claim describes the intended character literals, but the stray
`next_char()` at lexer.hpp line 211 discards the first content character:
`'a'` fails with unterminated_character instead of producing CHAR "a",
`'\z'` succeeds as CHAR "z" instead of failing with unknown_escape_sequence,
and `'\n'` produces CHAR "n" instead of the decoded newline character. -/
theorem C6_charlit_bug :
    tokenize (String.mk ['\'', 'a', '\'']) = ([], some .unterminated_character)
    ∧ tokenize (String.mk ['\'', '\\', 'z', '\'']) = ([⟨.CHAR, "z", 1, 5⟩], none)
    ∧ tokenize (String.mk ['\'', '\\', 'n', '\'']) = ([⟨.CHAR, "n", 1, 5⟩], none) := by
  refine ⟨by decide, by decide, by decide⟩

/-! The parser (parser.hpp): value types, AST nodes, the scope chain and
the recursive-descent functions. -/

/-- enum class Type of parser.hpp (`Type` is reserved in Lean, hence `Ty`). -/
inductive Ty where
  | INT | FLOAT | STRING | BOOL | NULL_T | UNKNOWN
deriving DecidableEq, Repr

/-- The AST node classes of parser.hpp. Children are `Option` because the
source holds them in nullable `std::unique_ptr`s. A `VariableNode` stores
its own shadowing `const Type type` member as `ty` (the inherited
`ASTNode::type` field of a VariableNode is never assigned and stays
UNKNOWN); a `VariableCallNode`'s `ty` is the inherited field, assigned from
the resolved symbol; a `PrototypeNode`'s `ty` is its shadowing return-type
member, and its `args` list holds the `(name, type)` of each parameter
VariableNode (their initializers are always null). The `FunctionNode` and
`CallNode` classes of the source are never constructed by any parser code
path and are omitted. -/
inductive ASTNode where
  | NullNode (token : Token)
  | NumberNode (token : Token) (isNeg : Bool)
  | BoolNode (token : Token) (val : Bool)
  | StringNode (token : Token)
  | BinaryOperation (left : Option ASTNode) (right : Option ASTNode) (op : Token)
  | UnaryOperation (node : Option ASTNode) (op : Token)
  | VariableNode (name : String) (val : Option ASTNode) (ty : Ty)
  | VariableCallNode (name : String) (ty : Ty)
  | PrototypeNode (name : String) (args : List (String × Ty)) (ty : Ty)
deriving Repr

/-- The inherited `ASTNode::type` field as observable on each node class:
set in the constructors of NullNode (NULL_T), NumberNode (INT, or FLOAT when
the lexeme contains a dot), BoolNode (BOOL) and StringNode (STRING);
assigned on a VariableCallNode from the resolved symbol; never assigned for
BinaryOperation, UnaryOperation, VariableNode and PrototypeNode, so it keeps
its UNKNOWN default there. -/
def ASTNode.nodeTy : ASTNode → Ty
  | .NullNode _ => .NULL_T
  | .NumberNode t _ => if t.val.data.contains '.' then .FLOAT else .INT
  | .BoolNode _ _ => .BOOL
  | .StringNode _ => .STRING
  | .BinaryOperation _ _ _ => .UNKNOWN
  | .UnaryOperation _ _ => .UNKNOWN
  | .VariableNode _ _ _ => .UNKNOWN
  | .VariableCallNode _ ty => ty
  | .PrototypeNode _ _ _ => .UNKNOWN

/-- struct Symbol of parser.hpp: `(type, val, is_const, name)`, with defaults
`UNKNOWN, nullptr, false, ""`. -/
structure Symbol where
  type : Ty
  val : Option ASTNode
  is_const : Bool
  name : String
deriving Repr

/-- class Scope of parser.hpp: two independent name-to-Symbol maps (`vars`
and `functions`, modelled as association lists looked up front-first) plus
`Scope* parent`. The nullable parent pointer is inlined into the two
constructors: `root` is a scope whose parent is null, `child` one whose
parent is the given scope. -/
inductive Scope where
  | root (vars : List (String × Symbol)) (functions : List (String × Symbol))
  | child (vars : List (String × Symbol)) (functions : List (String × Symbol))
      (parent : Scope)
deriving Repr

/-- The variables namespace of a scope. -/
def Scope.vars : Scope → List (String × Symbol)
  | .root v _ => v
  | .child v _ _ => v

/-- The functions namespace of a scope. -/
def Scope.functions : Scope → List (String × Symbol)
  | .root _ f => f
  | .child _ f _ => f

/-- Replace the variables namespace of a scope, keeping the rest. -/
def Scope.setVars (sc : Scope) (v : List (String × Symbol)) : Scope :=
  match sc with
  | .root _ f => .root v f
  | .child _ f p => .child v f p

/-- Replace the functions namespace of a scope, keeping the rest. -/
def Scope.setFunctions (sc : Scope) (f : List (String × Symbol)) : Scope :=
  match sc with
  | .root v _ => .root v f
  | .child v _ p => .child v f p

/-- `unordered_map::find` on the association list: the first entry wins. -/
def lookupA : List (String × Symbol) → String → Option Symbol
  | [], _ => none
  | (k, v) :: rest, n => if k = n then some v else lookupA rest n

/-- Scope::declare_var: return without inserting when the name is already in
this scope's variable namespace (the error report is a TODO in the source),
otherwise insert. Ancestor scopes are never consulted. -/
def declareVar (sc : Scope) (n : String) (sym : Symbol) : Scope :=
  if (lookupA sc.vars n).isSome then sc
  else sc.setVars ((n, sym) :: sc.vars)

/-- Scope::declare_function: same shape on the functions namespace. -/
def declareFunction (sc : Scope) (n : String) (sym : Symbol) : Scope :=
  if (lookupA sc.functions n).isSome then sc
  else sc.setFunctions ((n, sym) :: sc.functions)

/-- Scope::get_var: look in this scope's variable namespace, else recurse
into the parent; at the root a failed lookup is the "unknown variable"
failure (a null pointer in the source). -/
def getVar : Scope → String → Option Symbol
  | .root v _, n => lookupA v n
  | .child v _ p, n =>
      match lookupA v n with
      | some s => some s
      | none => getVar p n

/-- Scope::get_function: the same walk on the functions namespace. -/
def getFunction : Scope → String → Option Symbol
  | .root _ f, n => lookupA f n
  | .child _ f p, n =>
      match lookupA f n with
      | some s => some s
      | none => getFunction p n

/-- The chain of scopes from the current one up to the root, nearest
first: the search order of get_var / get_function. -/
def scopeChain : Scope → List Scope
  | .root v f => [.root v f]
  | .child v f p => .child v f p :: scopeChain p

/-- `current_scope = current_scope->parent` (never applied to the root by
the embedded code paths; the root case is returned unchanged). -/
def popScope : Scope → Scope
  | .root v f => .root v f
  | .child _ _ p => p

/-- Parser state: `rest` is `tokens[index ..]` (the not-yet-consumed suffix
of the token vector), plus the `column`/`line` counters and `current_scope`.
The parser is constructed with index 0, column 1, line 1 and a fresh empty
global scope. -/
structure ParserSt where
  rest : List Token
  column : Nat
  line : Nat
  current_scope : Scope
deriving Repr

/-- Parser construction on a token stream. -/
def mkParser (toks : List Token) : ParserSt := ⟨toks, 1, 1, Scope.root [] []⟩

/-- Parser::next_token: consume one token, updating the counters; past the
end it synthesizes an EOF token. The source passes `(column, line)` into
the `(line, column)` constructor slots, so the positions are swapped; the
string literal "\0" decays to an empty string_view. -/
def nextToken (st : ParserSt) : Token × ParserSt :=
  match st.rest with
  | token :: rs =>
      if token.type = TypeOfToken.NEWLINE then
        (token, { st with rest := rs, column := 1, line := st.line + 1 })
      else
        (token, { st with rest := rs, column := st.column + token.val.length })
  | [] => (⟨TypeOfToken.T_EOF, "", st.column, st.line⟩, st)

/-- Parser::peek_next: the next token without consuming, or a synthesized
EOF token (again with the swapped position arguments of the source). -/
def peekTok (st : ParserSt) : Token :=
  match st.rest with
  | token :: _ => token
  | [] => ⟨TypeOfToken.T_EOF, "", st.column, st.line⟩

/-- The type-name table used for parameter and return types in the `fn`
form: int/float/bool/string/null, anything else is UNKNOWN. -/
def strToTy (s : String) : Ty :=
  if s = "int" then .INT
  else if s = "float" then .FLOAT
  else if s = "bool" then .BOOL
  else if s = "string" then .STRING
  else if s = "null" then .NULL_T
  else .UNKNOWN

/-- The parameter loop of the `fn` form: while the next token is neither
`)` nor EOF, consume `<name> ':' <type>` (each expectation failure is only
a TODO in the source), record the parameter, and skip one comma if present.
Fuel-indexed; the loop-exit test precedes the fuel test, as the source
checks the condition before each iteration. -/
def parseParams (fuel : Nat) (params : List (String × Ty)) (st : ParserSt) :
    Option (List (String × Ty) × ParserSt) :=
  if (peekTok st).type ≠ TypeOfToken.RPAREN ∧ (peekTok st).type ≠ TypeOfToken.T_EOF then
    match fuel with
    | 0 => none
    | f + 1 =>
        let r1 := nextToken st
        let r2 := nextToken r1.2
        let r3 := nextToken r2.2
        let params' := params ++ [(r1.1.val, strToTy r3.1.val)]
        let st' := if (peekTok r3.2).type = TypeOfToken.COMMA then (nextToken r3.2).2 else r3.2
        parseParams f params' st'
  else some (params, st)

/-- The function-body loop of the `fn` definition form:
`while (peek != RBRACE || peek != T_EOF)` with an empty placeholder body.
The disjunctive condition is true of every token, and the body consumes
nothing, so the loop can only run out of fuel. -/
def fnBodyLoop (fuel : Nat) (st : ParserSt) : Option ParserSt :=
  if (peekTok st).type ≠ TypeOfToken.RBRACE ∨ (peekTok st).type ≠ TypeOfToken.T_EOF then
    match fuel with
    | 0 => none
    | f + 1 => fnBodyLoop f st
  else some st

/-- Result of one parser call: `ok` carries the returned (nullable)
`ASTNode*` and the state; `undef` marks the control paths on which the
source has undefined behaviour — falling off the end of parse_factor with
no return statement, or dereferencing the null Symbol* of a failed lookup. -/
inductive PResult where
  | ok (node : Option ASTNode) (st : ParserSt)
  | undef (st : ParserSt)
deriving Repr

/-- The tail of the `fn` form after the parameter list has been consumed:
`')' ':' <type>` then either `;` (prototype declaration: the name is
registered via declare_function and the prototype node returned) or `{`
(definition: the name is registered via declare_var — as in the source — a
child scope is pushed, the body loop runs, the scope is popped and the
placeholder nullptr returned); any other continuation falls off the end of
the if chain and the function (undefined). -/
def fnDefTail (fuel : Nat) (name : Token) (params : List (String × Ty))
    (st3 : ParserSt) : Option PResult :=
  let rRp := nextToken st3
  let rColon := nextToken rRp.2
  let rRet := nextToken rColon.2
  let retTy := strToTy rRet.1.val
  let proto : ASTNode := .PrototypeNode name.val params retTy
  if (peekTok rRet.2).type = TypeOfToken.SEMICOLON then
    let rSemi := nextToken rRet.2
    let sc := declareFunction rSemi.2.current_scope name.val ⟨retTy, none, false, ""⟩
    some (.ok (some proto) { rSemi.2 with current_scope := sc })
  else if (peekTok rRet.2).type = TypeOfToken.LBRACE then
    let rLb := nextToken rRet.2
    let sc := declareVar rLb.2.current_scope name.val ⟨retTy, none, false, ""⟩
    let stIn : ParserSt := { rLb.2 with current_scope := Scope.child [] [] sc }
    match fnBodyLoop fuel stIn with
    | none => none
    | some st4 =>
        some (.ok none { st4 with current_scope := popScope st4.current_scope })
  else some (.undef rRet.2)

/-- The mutually recursive descent functions of parser.hpp, as one
fuel-indexed function over a call tag: `expr`/`term` are parse_expr and
parse_term (with `exprLoop`/`termLoop` their left-associative while loops),
`factor` is parse_factor, and `keyword` the KEYWORD case of its switch
(a separate tag because the LPAREN case falls through into it when the
closing parenthesis is present). -/
inductive PCall where
  | expr
  | exprLoop (node : Option ASTNode)
  | term
  | termLoop (node : Option ASTNode)
  | factor
  | keyword (token : Token)

def parseRun : Nat → PCall → ParserSt → Option PResult
  | 0, _, _ => none
  | f + 1, c, st =>
      match c with
      | .expr =>
          match parseRun f .term st with
          | none => none
          | some (.undef st') => some (.undef st')
          | some (.ok node st') => parseRun f (.exprLoop node) st'
      | .exprLoop node =>
          if (peekTok st).type = TypeOfToken.OP_PLUS ∨ (peekTok st).type = TypeOfToken.OP_MINUS then
            let r := nextToken st
            match parseRun f .term r.2 with
            | none => none
            | some (.undef st') => some (.undef st')
            | some (.ok rhs st') =>
                parseRun f (.exprLoop (some (.BinaryOperation node rhs r.1))) st'
          else some (.ok node st)
      | .term =>
          match parseRun f .factor st with
          | none => none
          | some (.undef st') => some (.undef st')
          | some (.ok node st') => parseRun f (.termLoop node) st'
      | .termLoop node =>
          if (peekTok st).type = TypeOfToken.OP_TIMES ∨ (peekTok st).type = TypeOfToken.OP_DIV then
            let r := nextToken st
            match parseRun f .factor r.2 with
            | none => none
            | some (.undef st') => some (.undef st')
            | some (.ok rhs st') =>
                parseRun f (.termLoop (some (.BinaryOperation node rhs r.1))) st'
          else some (.ok node st)
      | .factor =>
          let r := nextToken st
          match r.1.type with
          | .NUMBER => some (.ok (some (.NumberNode r.1 false)) r.2)
          | .STRING => some (.ok (some (.StringNode r.1)) r.2)
          | .IDENTIFIER =>
              match getVar r.2.current_scope r.1.val with
              | none => some (.undef r.2)
              | some sym => some (.ok (some (.VariableCallNode r.1.val sym.type)) r.2)
          | .OP_MINUS =>
              match parseRun f .factor r.2 with
              | none => none
              | some (.undef st') => some (.undef st')
              | some (.ok n st') => some (.ok (some (.UnaryOperation n r.1)) st')
          | .LPAREN =>
              match parseRun f .expr r.2 with
              | none => none
              | some (.undef st') => some (.undef st')
              | some (.ok node st') =>
                  let rc := nextToken st'
                  if rc.1.type ≠ TypeOfToken.RPAREN then some (.ok node rc.2)
                  else parseRun f (.keyword r.1) rc.2
          | .KEYWORD => parseRun f (.keyword r.1) r.2
          | .COMMENT => some (.undef (nextToken r.2).2)
          | _ => some (.undef r.2)
      | .keyword token =>
          if token.val = "var" then
            let rName := nextToken st
            let rEq := nextToken rName.2
            match parseRun f .expr rEq.2 with
            | none => none
            | some (.undef st') => some (.undef st')
            | some (.ok valNode st') =>
                match valNode with
                | none => some (.undef st')
                | some v =>
                    let sym : Symbol := ⟨v.nodeTy, some v, false, ""⟩
                    let sc := declareVar st'.current_scope rName.1.val sym
                    some (.ok (some (.VariableNode rName.1.val none Ty.UNKNOWN))
                      { st' with current_scope := sc })
          else if token.val = "null" then some (.ok (some (.NullNode token)) st)
          else if token.val = "fn" then
            let rName := nextToken st
            let rLp := nextToken rName.2
            match parseParams f [] rLp.2 with
            | none => none
            | some (params, st3) => fnDefTail f rName.1 params st3
          else some (.undef st)

/-- C7: get_var and get_function search the current scope and then each
ancestor in order toward the root and return the nearest enclosing
declaration (the first match along `scopeChain`, exactly `findSome?` over
the chain); when no scope on the chain declares the name, the lookup
returns the failure value (none, a null pointer in the source) instead of
a binding. -/
theorem C7_scope_lookup : ∀ (sc : Scope) (n : String),
    (getVar sc n = (scopeChain sc).findSome? (fun s => lookupA s.vars n)
      ∧ (getVar sc n = none ↔ ∀ s ∈ scopeChain sc, lookupA s.vars n = none))
    ∧ (getFunction sc n = (scopeChain sc).findSome? (fun s => lookupA s.functions n)
      ∧ (getFunction sc n = none ↔ ∀ s ∈ scopeChain sc, lookupA s.functions n = none)) := by
  intro sc n
  induction sc with
  | root v f =>
      refine ⟨⟨?_, ?_⟩, ?_, ?_⟩
      · cases hl : lookupA v n <;>
          simp [getVar, scopeChain, Scope.vars, List.findSome?, hl]
      · simp [getVar, scopeChain, Scope.vars]
      · cases hl : lookupA f n <;>
          simp [getFunction, scopeChain, Scope.functions, List.findSome?, hl]
      · simp [getFunction, scopeChain, Scope.functions]
  | child v f p ih =>
      obtain ⟨⟨ihv1, ihv2⟩, ihf1, ihf2⟩ := ih
      refine ⟨⟨?_, ?_⟩, ?_, ?_⟩
      · cases hl : lookupA v n <;>
          simp [getVar, scopeChain, Scope.vars, List.findSome?, hl, ihv1]
      · cases hl : lookupA v n <;>
          simp [getVar, scopeChain, Scope.vars, hl, ihv2]
      · cases hl : lookupA f n <;>
          simp [getFunction, scopeChain, Scope.functions, List.findSome?, hl, ihf1]
      · cases hl : lookupA f n <;>
          simp [getFunction, scopeChain, Scope.functions, hl, ihf2]

/-- C8: declare_var / declare_function with a name already present in the
current scope's corresponding namespace do not insert and leave the scope
unchanged, so the original binding survives (the report itself is only a
TODO comment in the source); with a fresh name they insert into that
namespace only; and declaration never consults ancestors, so the same name
declares fine in a child scope over any parent whatsoever, where it then
shadows the ancestor binding for get_var. -/
theorem C8_declare : ∀ (sc : Scope) (n : String) (sym : Symbol)
    (fns : List (String × Symbol)) (p : Scope),
    ((lookupA sc.vars n).isSome = true → declareVar sc n sym = sc)
    ∧ (lookupA sc.vars n = none →
        (declareVar sc n sym).vars = (n, sym) :: sc.vars
        ∧ (declareVar sc n sym).functions = sc.functions)
    ∧ ((lookupA sc.functions n).isSome = true → declareFunction sc n sym = sc)
    ∧ (lookupA sc.functions n = none →
        (declareFunction sc n sym).functions = (n, sym) :: sc.functions
        ∧ (declareFunction sc n sym).vars = sc.vars)
    ∧ (declareVar (Scope.child [] fns p) n sym).vars = [(n, sym)]
    ∧ getVar (declareVar (Scope.child [] fns p) n sym) n = some sym := by
  intro sc n sym fns p
  refine ⟨?_, ?_, ?_, ?_, ?_, ?_⟩
  · intro h; simp [declareVar, h]
  · intro h
    cases sc <;> simp_all [declareVar, Scope.vars, Scope.functions, Scope.setVars]
  · intro h; simp [declareFunction, h]
  · intro h
    cases sc <;> simp_all [declareFunction, Scope.vars, Scope.functions, Scope.setFunctions]
  · simp [declareVar, Scope.vars, lookupA, Scope.setVars]
  · simp [declareVar, Scope.vars, lookupA, Scope.setVars, getVar]

/-- C8 witness: a duplicate `x` in the same scope is ignored and the INT
binding survives; the same `x` declared in a child of that scope succeeds
and shadows it. -/
theorem C8_declare_witness :
    declareVar (Scope.root [("x", ⟨Ty.INT, none, false, "x"⟩)] []) "x"
        ⟨Ty.STRING, none, false, ""⟩
      = Scope.root [("x", ⟨Ty.INT, none, false, "x"⟩)] []
    ∧ getVar (declareVar
          (Scope.child [] [] (Scope.root [("x", ⟨Ty.INT, none, false, "x"⟩)] []))
          "x" ⟨Ty.STRING, none, false, ""⟩) "x"
      = some ⟨Ty.STRING, none, false, ""⟩ :=
  ⟨(C8_declare (Scope.root [("x", ⟨Ty.INT, none, false, "x"⟩)] []) "x"
      ⟨Ty.STRING, none, false, ""⟩ [] (Scope.root [] [])).1 rfl,
   (C8_declare (Scope.root [] []) "x" ⟨Ty.STRING, none, false, ""⟩ []
      (Scope.root [("x", ⟨Ty.INT, none, false, "x"⟩)] [])).2.2.2.2.2⟩

/-- The token stream of `var x = "hi"` (positions are irrelevant to the
parser and set to 0). -/
def varXToks : List Token :=
  [⟨.KEYWORD, "var", 0, 0⟩, ⟨.IDENTIFIER, "x", 0, 0⟩,
   ⟨.OP_EQUALS, "=", 0, 0⟩, ⟨.STRING, "hi", 0, 0⟩]

/-- C2 counterexample: parsing `var x = "hi"` does insert `x` with type
STRING into the scope, but the returned VariableNode has type UNKNOWN, not
STRING as the claim states: the VariableNode constructor is called without
its type argument (which defaults to UNKNOWN) and with the initializer
pointer already moved into the symbol (so the node's `val` is null). -/
theorem C2_var_type_counterexample :
    parseRun 32 PCall.expr (mkParser varXToks)
      = some (.ok (some (.VariableNode "x" none Ty.UNKNOWN))
          ⟨[], 8, 1,
           Scope.root
             [("x", ⟨Ty.STRING, some (.StringNode ⟨.STRING, "hi", 0, 0⟩), false, ""⟩)]
             []⟩)
    ∧ Ty.UNKNOWN ≠ Ty.STRING :=
  ⟨rfl, by decide⟩

/-- C2 amended: parsing `var <identifier> '=' <expression>` reads the
initializer's resolved type into the Symbol that it inserts into the
current scope's variable namespace before the node is returned, so get_var
on the name subsequently succeeds in that scope with the initializer's
type; the returned variable-declaration node however carries name and type
UNKNOWN (and a null initializer), because the source constructs it without
the type argument after moving the initializer into the symbol. -/
theorem C2_var_decl_amended (f : Nat) (st : ParserSt) (varTok : Token)
    (v : ASTNode) (st' : ParserSt)
    (hval : varTok.val = "var")
    (hinit : parseRun f PCall.expr (nextToken (nextToken st).2).2
      = some (.ok (some v) st'))
    (hfresh : lookupA st'.current_scope.vars (nextToken st).1.val = none) :
    parseRun (f + 1) (PCall.keyword varTok) st =
      some (.ok (some (.VariableNode (nextToken st).1.val none Ty.UNKNOWN))
        { st' with current_scope :=
            declareVar st'.current_scope (nextToken st).1.val ⟨v.nodeTy, some v, false, ""⟩ })
    ∧ getVar (declareVar st'.current_scope (nextToken st).1.val ⟨v.nodeTy, some v, false, ""⟩)
        (nextToken st).1.val = some ⟨v.nodeTy, some v, false, ""⟩ := by
  constructor
  · simp [parseRun, hval, hinit]
  · cases hsc : st'.current_scope <;>
      simp_all [declareVar, Scope.vars, Scope.setVars, getVar, lookupA]

/-- C2 witness: the amended statement discharged on `var x = "hi"`. -/
theorem C2_var_decl_witness :
    parseRun 9 (PCall.keyword ⟨.KEYWORD, "var", 0, 0⟩)
        ⟨[⟨.IDENTIFIER, "x", 0, 0⟩, ⟨.OP_EQUALS, "=", 0, 0⟩, ⟨.STRING, "hi", 0, 0⟩],
         4, 1, Scope.root [] []⟩ =
      some (.ok (some (.VariableNode "x" none Ty.UNKNOWN))
        ⟨[], 8, 1,
         Scope.root
           [("x", ⟨Ty.STRING, some (.StringNode ⟨.STRING, "hi", 0, 0⟩), false, ""⟩)]
           []⟩)
    ∧ getVar (Scope.root
        [("x", ⟨Ty.STRING, some (.StringNode ⟨.STRING, "hi", 0, 0⟩), false, ""⟩)] []) "x"
      = some ⟨Ty.STRING, some (.StringNode ⟨.STRING, "hi", 0, 0⟩), false, ""⟩ :=
  C2_var_decl_amended 8
    ⟨[⟨.IDENTIFIER, "x", 0, 0⟩, ⟨.OP_EQUALS, "=", 0, 0⟩, ⟨.STRING, "hi", 0, 0⟩],
     4, 1, Scope.root [] []⟩
    ⟨.KEYWORD, "var", 0, 0⟩ (.StringNode ⟨.STRING, "hi", 0, 0⟩)
    ⟨[], 8, 1, Scope.root [] []⟩ rfl rfl rfl

/-- Every token type falsifies at most one of the two disequalities, so the
guard of the function-body loop is true of every token. -/
theorem tokTy_ne_rbrace_or_ne_eof (t : TypeOfToken) :
    t ≠ TypeOfToken.RBRACE ∨ t ≠ TypeOfToken.T_EOF := by
  cases t <;> simp

/-- The function-body loop never exits: its guard is always true and its
body (an empty placeholder in the source) changes nothing, so it runs out
of any amount of fuel. -/
theorem fnBodyLoop_none : ∀ (fuel : Nat) (st : ParserSt), fnBodyLoop fuel st = none := by
  intro fuel
  induction fuel with
  | zero => intro st; simp [fnBodyLoop, tokTy_ne_rbrace_or_ne_eof]
  | succ f ih => intro st; simp [fnBodyLoop, tokTy_ne_rbrace_or_ne_eof, ih]

/-- The token stream of `fn add(a: int, b: int): int { }`. -/
def fnDefToks : List Token :=
  [⟨.KEYWORD, "fn", 0, 0⟩, ⟨.IDENTIFIER, "add", 0, 0⟩, ⟨.LPAREN, "(", 0, 0⟩,
   ⟨.IDENTIFIER, "a", 0, 0⟩, ⟨.COLON, ":", 0, 0⟩, ⟨.IDENTIFIER, "int", 0, 0⟩,
   ⟨.COMMA, ",", 0, 0⟩, ⟨.IDENTIFIER, "b", 0, 0⟩, ⟨.COLON, ":", 0, 0⟩,
   ⟨.IDENTIFIER, "int", 0, 0⟩, ⟨.RPAREN, ")", 0, 0⟩, ⟨.COLON, ":", 0, 0⟩,
   ⟨.IDENTIFIER, "int", 0, 0⟩, ⟨.LBRACE, "\x7b", 0, 0⟩, ⟨.RBRACE, "\x7d", 0, 0⟩]

/-- C3: the claim that the child scope pushed for a function body is always
popped is wrong on the code: the body loop's guard `!= RBRACE || != T_EOF`
is true of every token and the loop body is an empty placeholder, so
parsing `fn add(a: int, b: int): int { }` never finishes for any amount of
fuel — the scope pop after the loop is unreachable and current_scope is
never restored. -/
theorem C3_fn_scope_bug :
    (∀ (fuel : Nat) (st : ParserSt), fnBodyLoop fuel st = none)
    ∧ ∀ (fuel : Nat), parseRun fuel PCall.expr (mkParser fnDefToks) = none := by
  refine ⟨fnBodyLoop_none, ?_⟩
  intro fuel
  rcases fuel with _ | f
  · rfl
  rcases f with _ | g
  · rfl
  rcases g with _ | h
  · rfl
  rcases h with _ | k
  · rfl
  rcases k with _ | m
  · rfl
  rcases m with _ | q
  · rfl
  rcases q with _ | q
  · rfl
  show parseRun (q + 7) PCall.expr (mkParser fnDefToks) = none
  have h1 : parseRun (q + 4) (PCall.keyword ⟨.KEYWORD, "fn", 0, 0⟩)
      ⟨[⟨.IDENTIFIER, "add", 0, 0⟩, ⟨.LPAREN, "(", 0, 0⟩,
        ⟨.IDENTIFIER, "a", 0, 0⟩, ⟨.COLON, ":", 0, 0⟩, ⟨.IDENTIFIER, "int", 0, 0⟩,
        ⟨.COMMA, ",", 0, 0⟩, ⟨.IDENTIFIER, "b", 0, 0⟩, ⟨.COLON, ":", 0, 0⟩,
        ⟨.IDENTIFIER, "int", 0, 0⟩, ⟨.RPAREN, ")", 0, 0⟩, ⟨.COLON, ":", 0, 0⟩,
        ⟨.IDENTIFIER, "int", 0, 0⟩, ⟨.LBRACE, "\x7b", 0, 0⟩, ⟨.RBRACE, "\x7d", 0, 0⟩],
       3, 1, Scope.root [] []⟩ = none := by
    have e : parseRun (q + 4) (PCall.keyword ⟨.KEYWORD, "fn", 0, 0⟩)
        ⟨[⟨.IDENTIFIER, "add", 0, 0⟩, ⟨.LPAREN, "(", 0, 0⟩,
          ⟨.IDENTIFIER, "a", 0, 0⟩, ⟨.COLON, ":", 0, 0⟩, ⟨.IDENTIFIER, "int", 0, 0⟩,
          ⟨.COMMA, ",", 0, 0⟩, ⟨.IDENTIFIER, "b", 0, 0⟩, ⟨.COLON, ":", 0, 0⟩,
          ⟨.IDENTIFIER, "int", 0, 0⟩, ⟨.RPAREN, ")", 0, 0⟩, ⟨.COLON, ":", 0, 0⟩,
          ⟨.IDENTIFIER, "int", 0, 0⟩, ⟨.LBRACE, "\x7b", 0, 0⟩, ⟨.RBRACE, "\x7d", 0, 0⟩],
         3, 1, Scope.root [] []⟩
        = (match fnBodyLoop (q + 3)
              ⟨[⟨.RBRACE, "\x7d", 0, 0⟩], 24, 1,
               Scope.child [] [] (Scope.root [("add", ⟨Ty.INT, none, false, ""⟩)] [])⟩ with
           | none => none
           | some st4 =>
               some (.ok none { st4 with current_scope := popScope st4.current_scope })) := rfl
    rw [e, fnBodyLoop_none]
  have h2 : parseRun (q + 5) PCall.factor (mkParser fnDefToks) = none := by
    have e : parseRun (q + 5) PCall.factor (mkParser fnDefToks)
        = parseRun (q + 4) (PCall.keyword ⟨.KEYWORD, "fn", 0, 0⟩)
            ⟨[⟨.IDENTIFIER, "add", 0, 0⟩, ⟨.LPAREN, "(", 0, 0⟩,
              ⟨.IDENTIFIER, "a", 0, 0⟩, ⟨.COLON, ":", 0, 0⟩, ⟨.IDENTIFIER, "int", 0, 0⟩,
              ⟨.COMMA, ",", 0, 0⟩, ⟨.IDENTIFIER, "b", 0, 0⟩, ⟨.COLON, ":", 0, 0⟩,
              ⟨.IDENTIFIER, "int", 0, 0⟩, ⟨.RPAREN, ")", 0, 0⟩, ⟨.COLON, ":", 0, 0⟩,
              ⟨.IDENTIFIER, "int", 0, 0⟩, ⟨.LBRACE, "\x7b", 0, 0⟩, ⟨.RBRACE, "\x7d", 0, 0⟩],
             3, 1, Scope.root [] []⟩ := rfl
    rw [e, h1]
  have h3 : parseRun (q + 6) PCall.term (mkParser fnDefToks) = none := by
    have e : parseRun (q + 6) PCall.term (mkParser fnDefToks)
        = (match parseRun (q + 5) PCall.factor (mkParser fnDefToks) with
           | none => none
           | some (.undef st') => some (.undef st')
           | some (.ok node st') => parseRun (q + 5) (.termLoop node) st') := rfl
    rw [e, h2]
  have e : parseRun (q + 7) PCall.expr (mkParser fnDefToks)
      = (match parseRun (q + 6) PCall.term (mkParser fnDefToks) with
         | none => none
         | some (.undef st') => some (.undef st')
         | some (.ok node st') => parseRun (q + 6) (.exprLoop node) st') := rfl
  rw [e, h3]

/-- C4: the claim that a type mismatch in a binary operation is reported is
wrong on the code: the BinaryOperation constructor neither checks operand
types nor assigns the node's type. Parsing `1 + "x"` (operands typed INT
and STRING) succeeds with no error and yields an UNKNOWN-typed binary node,
and even the well-typed `1 + 2` yields an UNKNOWN-typed node rather than
the shared operand type INT. -/
theorem C4_binary_type_bug :
    parseRun 32 PCall.expr
        (mkParser [⟨.NUMBER, "1", 0, 0⟩, ⟨.OP_PLUS, "+", 0, 0⟩, ⟨.STRING, "x", 0, 0⟩])
      = some (.ok (some (.BinaryOperation
          (some (.NumberNode ⟨.NUMBER, "1", 0, 0⟩ false))
          (some (.StringNode ⟨.STRING, "x", 0, 0⟩))
          ⟨.OP_PLUS, "+", 0, 0⟩))
        ⟨[], 4, 1, Scope.root [] []⟩)
    ∧ (ASTNode.NumberNode ⟨.NUMBER, "1", 0, 0⟩ false).nodeTy = Ty.INT
    ∧ (ASTNode.StringNode ⟨.STRING, "x", 0, 0⟩).nodeTy = Ty.STRING
    ∧ (ASTNode.BinaryOperation
          (some (.NumberNode ⟨.NUMBER, "1", 0, 0⟩ false))
          (some (.StringNode ⟨.STRING, "x", 0, 0⟩))
          ⟨.OP_PLUS, "+", 0, 0⟩).nodeTy = Ty.UNKNOWN
    ∧ parseRun 32 PCall.expr
        (mkParser [⟨.NUMBER, "1", 0, 0⟩, ⟨.OP_PLUS, "+", 0, 0⟩, ⟨.NUMBER, "2", 0, 0⟩])
      = some (.ok (some (.BinaryOperation
          (some (.NumberNode ⟨.NUMBER, "1", 0, 0⟩ false))
          (some (.NumberNode ⟨.NUMBER, "2", 0, 0⟩ false))
          ⟨.OP_PLUS, "+", 0, 0⟩))
        ⟨[], 4, 1, Scope.root [] []⟩)
    ∧ (ASTNode.BinaryOperation
          (some (.NumberNode ⟨.NUMBER, "1", 0, 0⟩ false))
          (some (.NumberNode ⟨.NUMBER, "2", 0, 0⟩ false))
          ⟨.OP_PLUS, "+", 0, 0⟩).nodeTy = Ty.UNKNOWN
    ∧ Ty.UNKNOWN ≠ Ty.INT :=
  ⟨rfl, rfl, rfl, rfl, rfl, rfl, by decide⟩

end Nano
